import Mathlib

/-!
Verification of the card-game state engine of CardGameDemo.

The development is a shallow embedding of the engine's data model and
operations, translated from the C++ sources:

* `Classes/configs/GameConsts.h`    — `CardFaceType`, `CardSuitType`, `CardState`
* `Classes/models/CardModel.h`      — `CardModel`
* `Classes/models/GameModel.h`      — `GameModel` (card registry)
* `Classes/models/UndoModel.h`      — `UndoCommand`
* `Classes/managers/UndoManager.cpp`— `pushCommand`, `canUndo`, `popCommand`
* `Classes/services/GameLogicService.cpp` — `canMatch`, `applyMove`, `applyStateChange`
* `Classes/controllers/GameController.cpp` — `performMoveCard`, `onUndoClicked`
* `Classes/controllers/PlayFieldController.cpp` — `handleCardClick`, `initView`
* `Classes/controllers/StackController.cpp` — `handleCardClick`, `initView`, `setTopCard`

Modelling conventions:

* `cocos2d::Vec2` is modelled with integer coordinates (`Vec2`); the engine
  only stores positions and compares them for exact equality (the
  origin-position-equals-zero region test), so no float arithmetic is needed.
* Card faces and suits are modelled as `Int`, with the numeric values of the
  C++ enums (`CFT_NONE = -1`, `CFT_ACE = 0`, …, `CFT_KING = 12`).
* The registry `GameModel::allCards` is a `List Card`; `getCardById` is the
  source's linear scan returning the first card with the given id, and
  in-place mutation through the returned `shared_ptr` is modelled by
  `updateFirst`, which rewrites the first card with that id.
* The pointer `StackController::_topStackCard` is modelled by the id of the
  card it references (`GameState.topCardId : Option Int`, `none` = null).
  In the running program that pointer always aliases a registry card
  (`initView` and every `setTopCard` call pass cards obtained from the
  registry, and the registry never removes cards), so reads through the
  pointer are modelled as registry lookups; the predicate `topResolvable`
  states exactly that aliasing invariant.
* `StackController::handleCardClick` dereferences `_topStackCard` without a
  null check when building the undo command; the embedding returns `none`
  (`Option`) in exactly that situation, so the null dereference is visible
  as a missing result.
* `GameController::onUndoClicked` is a `void` function: it is modelled as a
  pure state transformer `GameState → GameState` with no result channel.
* The view layer (sprites, animations) is non-authoritative and is omitted:
  the model state already reflects every mutation before any animation runs.
-/

/-- Integer 2D vector standing in for `cocos2d::Vec2` (positions are only
stored and compared for equality by the engine core). -/
structure Vec2 where
  x : Int
  y : Int
deriving DecidableEq, Repr

/-- `cocos2d::Vec2::ZERO`. -/
def Vec2.zero : Vec2 := ⟨0, 0⟩

/-- `CardState` from `GameConsts.h`. -/
inductive CardState where
  | FACE_DOWN
  | FACE_UP
  | REMOVED
deriving DecidableEq, Repr

/-- `CardModel` (`CardModel.h`): id, face (`CardFaceType` as `Int`,
`CFT_NONE = -1`, `CFT_ACE = 0`, …, `CFT_KING = 12`), suit (`CardSuitType`
as `Int`), current position, origin position (fixed at creation), state,
stacking order (`_zIndex`). -/
structure Card where
  id : Int
  face : Int
  suit : Int
  pos : Vec2
  originPos : Vec2
  state : CardState
  zIndex : Int
deriving DecidableEq, Repr

/-- `UndoCommand` (`UndoModel.h`): snapshot taken before a move/draw. -/
structure UndoCommand where
  cardId : Int
  fromPos : Vec2
  prevTopCardId : Int
  prevState : CardState
  prevZIndex : Int
deriving DecidableEq, Repr

/-- The default-constructed `UndoCommand()` from `UndoModel.h`:
`cardId(-1), fromPos(Vec2::ZERO), prevTopCardId(-1), prevState(FACE_DOWN),
prevZIndex(0)`. -/
def UndoCommand.initDefault : UndoCommand :=
  ⟨-1, Vec2.zero, -1, CardState.FACE_DOWN, 0⟩

/-- `GameModel::getCardById`: linear scan, first card whose id matches,
`nullptr` (here `none`) when absent. -/
def getCardById : List Card → Int → Option Card
  | [], _ => none
  | c :: rest, i => if c.id = i then some c else getCardById rest i

/-- In-place mutation of the card object returned by `getCardById`
(a `shared_ptr` aliasing a registry entry): rewrite the first card whose
id matches, leave everything else untouched. -/
def updateFirst : List Card → Int → (Card → Card) → List Card
  | [], _, _ => []
  | c :: rest, i, f => if c.id = i then f c :: rest else c :: updateFirst rest i f

/-- `GameLogicService::applyMove`: unconditionally set position and z-index. -/
def applyMove (c : Card) (targetPos : Vec2) (newZIndex : Int) : Card :=
  { c with pos := targetPos, zIndex := newZIndex }

/-- `GameLogicService::applyStateChange`: unconditionally set the state. -/
def applyStateChange (c : Card) (newState : CardState) : Card :=
  { c with state := newState }

/-- `GameLogicService::canMatch`: null-checks, then true iff the faces
differ by exactly 1, or one face is `CFT_ACE` (0) and the other is
`CFT_KING` (12). -/
def canMatch : Option Card → Option Card → Bool
  | none, _ => false
  | _, none => false
  | some handCard, some fieldCard =>
    let faceA : Int := handCard.face
    let faceB : Int := fieldCard.face
    if (faceA - faceB).natAbs = 1 then true
    else if (faceA = 0 && faceB = 12) || (faceA = 12 && faceB = 0) then true
    else false

/-- `UndoManager::pushCommand` (`std::stack::push`; the head of the list is
the top of the stack). -/
def pushCommand (history : List UndoCommand) (cmd : UndoCommand) : List UndoCommand :=
  cmd :: history

/-- `UndoManager::canUndo`: true iff the history is non-empty. -/
def canUndo (history : List UndoCommand) : Bool :=
  !history.isEmpty

/-- `UndoManager::popCommand`: on an empty stack returns the
default-constructed command; otherwise removes and returns the top. -/
def popCommand : List UndoCommand → UndoCommand × List UndoCommand
  | [] => (UndoCommand.initDefault, [])
  | cmd :: rest => (cmd, rest)

/-- The mutable state shared by the controllers: the registry
(`GameModel::allCards`), the active/top card reference
(`StackController::_topStackCard`, by id, `none` = null), the undo history
(`UndoManager::_history`), and the fixed active-pile position
(`StackController::_activePos`, set once in `init`). -/
structure GameState where
  cards : List Card
  topCardId : Option Int
  undoStack : List UndoCommand
  activePos : Vec2
deriving DecidableEq, Repr

/-- Reading the card `_topStackCard` points to: resolve the stored id in
the registry (valid on states satisfying `topResolvable`). -/
def getTop (s : GameState) : Option Card :=
  s.topCardId.bind (getCardById s.cards)

/-- The aliasing invariant of the running program: whenever the top-card
pointer is set, the card it references is in the registry. -/
def topResolvable (s : GameState) : Bool :=
  match s.topCardId with
  | none => true
  | some tid => (getCardById s.cards tid).isSome

/-- `GameController::performMoveCard` (data-layer part): compute
`newZ = topCard ? topCard->getZIndex() + 1 : 100`, apply the move to the
given card, then `setTopCard(card)`. The card argument is passed by id
(callers always pass a card obtained from the registry). -/
def performMoveCard (s : GameState) (cardId : Int) (targetPos : Vec2) : GameState :=
  let newZ : Int :=
    match getTop s with
    | some topCard => topCard.zIndex + 1
    | none => 100
  { s with
      cards := updateFirst s.cards cardId (fun c => applyMove c targetPos newZ),
      topCardId := some cardId }

/-- `PlayFieldController::handleCardClick`: resolve the clicked card
(`false` when absent), resolve the top card (`false` when null), check
`canMatch(topCard, card)`; when it matches, push the undo snapshot and
delegate to `performMoveCard` with the top card's position as target. -/
def playFieldClick (s : GameState) (cardId : Int) : GameState × Bool :=
  match getCardById s.cards cardId with
  | none => (s, false)
  | some card =>
    match getTop s with
    | none => (s, false)
    | some topCard =>
      if canMatch (some topCard) (some card) then
        let cmd : UndoCommand :=
          ⟨card.id, card.pos, topCard.id, card.state, card.zIndex⟩
        let s1 : GameState := { s with undoStack := pushCommand s.undoStack cmd }
        (performMoveCard s1 cardId topCard.pos, true)
      else (s, false)

/-- `StackController::handleCardClick`: resolve the clicked card (`false`
when absent); accept only a draw-region card (`originPos == Vec2::ZERO`)
that is `FACE_DOWN`; on acceptance the undo snapshot reads
`_topStackCard->getId()` with no null check — the embedding returns `none`
exactly when that dereference would hit a null pointer — then flips the
card `FACE_UP` and delegates to `performMoveCard` with `_activePos`. -/
def stackClick (s : GameState) (cardId : Int) : Option (GameState × Bool) :=
  match getCardById s.cards cardId with
  | none => some (s, false)
  | some card =>
    if card.originPos = Vec2.zero ∧ card.state = CardState.FACE_DOWN then
      match s.topCardId with
      | none => none
      | some tid =>
        let cmd : UndoCommand := ⟨card.id, card.pos, tid, card.state, card.zIndex⟩
        let s1 : GameState :=
          { s with
              undoStack := pushCommand s.undoStack cmd,
              cards := updateFirst s.cards cardId
                (fun c => applyStateChange c CardState.FACE_UP) }
        some (performMoveCard s1 cardId s.activePos, true)
    else some (s, false)

/-- `GameController::onUndoClicked` (data-layer part): `void` — a pure
state transformer. Guard on `canUndo`, pop the latest command, look up the
moved card and the previous top card; when both resolve, restore position,
z-index and state from the snapshot and point `_topStackCard` at the
previous top card; when either is missing, do nothing further (the popped
entry is silently discarded). -/
def onUndoClicked (s : GameState) : GameState :=
  if canUndo s.undoStack then
    let pr := popCommand s.undoStack
    let cmd := pr.1
    let rest := pr.2
    if (getCardById s.cards cmd.cardId).isSome
        && (getCardById s.cards cmd.prevTopCardId).isSome then
      { s with
          cards := updateFirst s.cards cmd.cardId
            (fun c => applyStateChange (applyMove c cmd.fromPos cmd.prevZIndex) cmd.prevState),
          topCardId := some cmd.prevTopCardId,
          undoStack := rest }
    else { s with undoStack := rest }
  else s

/-- Loop body of `StackController::initView` over the filtered draw-region
cards: the last one is moved to `_activePos` with z-index 100 and turned
`FACE_UP` (the initial active card); every other one is laid out at
`_stockPos + (70 * offsetIndex, 0)` with z-index `offsetIndex`, `FACE_DOWN`.
`total` is the number of draw-region cards, `seen` counts those already
processed (the last one is reached exactly when `seen + 1 = total`). -/
def initStackLoop (cards : List Card) (total seen : Nat) (stockPos activePos : Vec2) : List Card :=
  match cards with
  | [] => []
  | c :: rest =>
    if c.originPos = Vec2.zero then
      if seen + 1 = total then
        applyStateChange (applyMove c activePos 100) CardState.FACE_UP
          :: initStackLoop rest total (seen + 1) stockPos activePos
      else
        applyStateChange
            (applyMove c ⟨stockPos.x + 70 * Int.ofNat seen, stockPos.y + 0⟩ (Int.ofNat seen))
            CardState.FACE_DOWN
          :: initStackLoop rest total (seen + 1) stockPos activePos
    else c :: initStackLoop rest total seen stockPos activePos

/-- `StackController::initView` (data-layer part): filter the draw-region
cards (`originPos == Vec2::ZERO`), lay them out, and set `_topStackCard` to
the last of them; when there are none the loop body never runs and the
top-card pointer stays as it was. -/
def stackInitView (s : GameState) (stockPos : Vec2) : GameState :=
  let stackCards := s.cards.filter (fun c => c.originPos = Vec2.zero)
  match stackCards.getLast? with
  | none => s
  | some lastCard =>
    { s with
        cards := initStackLoop s.cards stackCards.length 0 stockPos s.activePos,
        topCardId := some lastCard.id }

/-- `PlayFieldController::initView` (data-layer part): every non-draw-region
card is shifted up by the layout offset (250); the top-card reference and
the undo history are untouched. -/
def playFieldInitView (s : GameState) : GameState :=
  { s with
      cards := s.cards.map (fun c =>
        if c.originPos = Vec2.zero then c
        else applyMove c ⟨c.pos.x, c.pos.y + 250⟩ c.zIndex) }

/-- A player action: a match-area click (`PlayFieldController::handleCardClick`)
or a draw-pile click (`StackController::handleCardClick`). -/
inductive PlayerAction where
  | play (cardId : Int)
  | draw (cardId : Int)
deriving DecidableEq, Repr

/-- Run a sequence of player actions, requiring every one of them to be
accepted (handler returns `true`); `none` if any action is not accepted
(or hits the unguarded null dereference). -/
def runAccepted (s : GameState) : List PlayerAction → Option GameState
  | [] => some s
  | PlayerAction.play cid :: rest =>
    match playFieldClick s cid with
    | (s1, true) => runAccepted s1 rest
    | (_, false) => none
  | PlayerAction.draw cid :: rest =>
    match stackClick s cid with
    | some (s1, true) => runAccepted s1 rest
    | _ => none

/-- `n` consecutive presses of the undo button. -/
def undoN : Nat → GameState → GameState
  | 0, s => s
  | n + 1, s => onUndoClicked (undoN n s)

/-- States reachable from `s` through the click handlers, the undo button,
and the play-field layout pass (the draw transition exists only when the
handler completes, i.e. does not hit the null dereference). -/
inductive Reachable (s : GameState) : GameState → Prop
  | refl : Reachable s s
  | play (t : GameState) (cid : Int) :
      Reachable s t → Reachable s (playFieldClick t cid).1
  | draw (t r : GameState) (b : Bool) (cid : Int) :
      Reachable s t → stackClick t cid = some (r, b) → Reachable s r
  | undo (t : GameState) :
      Reachable s t → Reachable s (onUndoClicked t)
  | pfInit (t : GameState) :
      Reachable s t → Reachable s (playFieldInitView t)

/-! ## Registry lemmas -/

theorem getCardById_id {l : List Card} {i : Int} {c : Card}
    (h : getCardById l i = some c) : c.id = i := by
  induction l with
  | nil => simp [getCardById] at h
  | cons d rest ih =>
    by_cases hd : d.id = i
    · simp only [getCardById, if_pos hd, Option.some.injEq] at h
      rw [← h]; exact hd
    · simp only [getCardById, if_neg hd] at h
      exact ih h

theorem updateFirst_not_found {l : List Card} {i : Int} (f : Card → Card)
    (h : getCardById l i = none) : updateFirst l i f = l := by
  induction l with
  | nil => rfl
  | cons d rest ih =>
    by_cases hd : d.id = i
    · simp [getCardById, hd] at h
    · simp [getCardById, hd] at h
      simp [updateFirst, hd, ih h]

theorem getCardById_updateFirst_self {l : List Card} {i : Int} {c : Card} (f : Card → Card)
    (h : getCardById l i = some c) (hf : (f c).id = c.id) :
    getCardById (updateFirst l i f) i = some (f c) := by
  induction l with
  | nil => simp [getCardById] at h
  | cons d rest ih =>
    by_cases hd : d.id = i
    · have hdc : c = d := by
        simp only [getCardById, if_pos hd, Option.some.injEq] at h
        exact h.symm
      subst hdc
      simp only [updateFirst, if_pos hd, getCardById]
      rw [if_pos (by rw [hf]; exact hd)]
    · simp only [getCardById, if_neg hd] at h
      simp only [updateFirst, if_neg hd, getCardById, if_neg hd]
      exact ih h

theorem getCardById_updateFirst_ne {l : List Card} {i j : Int} (f : Card → Card)
    (hne : j ≠ i) (hf : ∀ x, (f x).id = x.id) :
    getCardById (updateFirst l i f) j = getCardById l j := by
  induction l with
  | nil => rfl
  | cons d rest ih =>
    by_cases hd : d.id = i
    · have hij : ¬ ((f d).id = j) := by
        rw [hf d, hd]; exact fun hh => hne hh.symm
      have hij2 : ¬ (d.id = j) := by
        rw [hd]; exact fun hh => hne hh.symm
      simp only [updateFirst, if_pos hd, getCardById, if_neg hij, if_neg hij2]
    · simp only [updateFirst, if_neg hd, getCardById, ih]

theorem updateFirst_updateFirst {l : List Card} {i : Int} (f g : Card → Card)
    (hf : ∀ x, (f x).id = x.id) :
    updateFirst (updateFirst l i f) i g = updateFirst l i (fun x => g (f x)) := by
  induction l with
  | nil => rfl
  | cons d rest ih =>
    by_cases hd : d.id = i
    · simp [updateFirst, hd, hf]
    · simp [updateFirst, hd, ih]

theorem updateFirst_eq_self {l : List Card} {i : Int} {c : Card} (h : Card → Card)
    (hc : getCardById l i = some c) (hfix : h c = c) : updateFirst l i h = l := by
  induction l with
  | nil => rfl
  | cons d rest ih =>
    by_cases hd : d.id = i
    · simp [getCardById, hd] at hc
      subst hc
      simp [updateFirst, hd, hfix]
    · simp [getCardById, hd] at hc
      simp [updateFirst, hd, ih hc]

theorem canMatch_refl (c : Card) : canMatch (some c) (some c) = false := by
  simp [canMatch]
  omega

/-! ## Evaluation lemmas for the handlers -/

theorem getTop_set_undoStack (s : GameState) (u : List UndoCommand) :
    getTop { s with undoStack := u } = getTop s := rfl

theorem getTop_eq_some {s : GameState} {top : Card} (h : getTop s = some top) :
    ∃ tid, s.topCardId = some tid ∧ getCardById s.cards tid = some top := by
  cases htid : s.topCardId with
  | none => rw [getTop, htid] at h; simp at h
  | some tid =>
    rw [getTop, htid] at h
    exact ⟨tid, rfl, h⟩

theorem onUndoClicked_empty {s : GameState} (h : s.undoStack = []) :
    onUndoClicked s = s := by
  unfold onUndoClicked
  rw [h]
  simp [canUndo]

theorem onUndoClicked_eval {s : GameState} {cmd : UndoCommand} {rest : List UndoCommand}
    (hstack : s.undoStack = cmd :: rest)
    (h1 : (getCardById s.cards cmd.cardId).isSome = true)
    (h2 : (getCardById s.cards cmd.prevTopCardId).isSome = true) :
    onUndoClicked s =
      { s with
          cards := updateFirst s.cards cmd.cardId
            (fun c => applyStateChange (applyMove c cmd.fromPos cmd.prevZIndex) cmd.prevState),
          topCardId := some cmd.prevTopCardId,
          undoStack := rest } := by
  unfold onUndoClicked
  rw [hstack]
  simp [canUndo, popCommand, h1, h2]

theorem onUndoClicked_corrupt {s : GameState} {cmd : UndoCommand} {rest : List UndoCommand}
    (hstack : s.undoStack = cmd :: rest)
    (h : (getCardById s.cards cmd.cardId).isSome = false
        ∨ (getCardById s.cards cmd.prevTopCardId).isSome = false) :
    onUndoClicked s = { s with undoStack := rest } := by
  unfold onUndoClicked
  rw [hstack]
  rcases h with h | h <;> simp [canUndo, popCommand, h]

theorem playFieldClick_accepted {s s1 : GameState} {cid : Int}
    (hstep : playFieldClick s cid = (s1, true)) :
    ∃ card top, getCardById s.cards cid = some card ∧
      getTop s = some top ∧
      canMatch (some top) (some card) = true ∧
      s1 = { s with
        cards := updateFirst s.cards cid (fun c => applyMove c top.pos (top.zIndex + 1)),
        topCardId := some cid,
        undoStack := ⟨card.id, card.pos, top.id, card.state, card.zIndex⟩ :: s.undoStack } := by
  unfold playFieldClick at hstep
  cases hc : getCardById s.cards cid with
  | none => rw [hc] at hstep; simp at hstep
  | some card =>
    rw [hc] at hstep
    cases htop : getTop s with
    | none => rw [htop] at hstep; simp at hstep
    | some top =>
      rw [htop] at hstep
      dsimp only at hstep
      by_cases hm : canMatch (some top) (some card) = true
      · rw [if_pos hm] at hstep
        refine ⟨card, top, rfl, rfl, hm, ?_⟩
        have hs1 : s1 = performMoveCard
            { s with undoStack :=
                pushCommand s.undoStack ⟨card.id, card.pos, top.id, card.state, card.zIndex⟩ }
            cid top.pos := by
          have h2 := congrArg Prod.fst hstep
          exact h2.symm
        rw [hs1]
        unfold performMoveCard
        rw [getTop_set_undoStack, htop]
        rfl
      · rw [if_neg hm] at hstep
        simp at hstep

theorem stackClick_accepted {s s1 : GameState} {cid : Int}
    (hstep : stackClick s cid = some (s1, true)) :
    ∃ card tid newZ, getCardById s.cards cid = some card ∧
      card.originPos = Vec2.zero ∧ card.state = CardState.FACE_DOWN ∧
      s.topCardId = some tid ∧
      s1 = { s with
        cards := updateFirst
          (updateFirst s.cards cid (fun c => applyStateChange c CardState.FACE_UP))
          cid (fun c => applyMove c s.activePos newZ),
        topCardId := some cid,
        undoStack := ⟨card.id, card.pos, tid, card.state, card.zIndex⟩ :: s.undoStack } := by
  unfold stackClick at hstep
  cases hc : getCardById s.cards cid with
  | none => rw [hc] at hstep; simp at hstep
  | some card =>
    rw [hc] at hstep
    dsimp only at hstep
    by_cases hcond : card.originPos = Vec2.zero ∧ card.state = CardState.FACE_DOWN
    · rw [if_pos hcond] at hstep
      cases htid : s.topCardId with
      | none => rw [htid] at hstep; simp at hstep
      | some tid =>
        rw [htid] at hstep
        dsimp only at hstep
        simp only [Option.some.injEq, Prod.mk.injEq] at hstep
        refine ⟨card, tid, ?_, rfl, hcond.1, hcond.2, rfl, ?_⟩
        · exact (match getTop { s with
              cards := updateFirst s.cards cid (fun c => applyStateChange c CardState.FACE_UP),
              topCardId := some tid,
              undoStack := pushCommand s.undoStack
                ⟨card.id, card.pos, tid, card.state, card.zIndex⟩ } with
            | some t => t.zIndex + 1
            | none => 100)
        · rw [← hstep.1]
          rfl
    · rw [if_neg hcond] at hstep
      simp at hstep

/-! ## Single-step inversion -/

theorem play_step_inverse {s s1 : GameState} {cid : Int}
    (hstep : playFieldClick s cid = (s1, true)) : onUndoClicked s1 = s := by
  obtain ⟨card, top, hc, htop, hm, hs1⟩ := playFieldClick_accepted hstep
  obtain ⟨tid, htid, htidc⟩ := getTop_eq_some htop
  have hcid : card.id = cid := getCardById_id hc
  have htopid : top.id = tid := getCardById_id htidc
  subst hcid
  subst htopid
  have hne : top.id ≠ card.id := by
    intro he
    rw [he] at htidc
    rw [hc] at htidc
    have hct : card = top := Option.some.inj htidc
    rw [hct, canMatch_refl] at hm
    exact Bool.false_ne_true hm
  have hstack1 : s1.undoStack
      = (⟨card.id, card.pos, top.id, card.state, card.zIndex⟩ : UndoCommand) :: s.undoStack := by
    rw [hs1]
  have hcards1 : getCardById s1.cards card.id
      = some (applyMove card top.pos (top.zIndex + 1)) := by
    rw [hs1]
    exact getCardById_updateFirst_self _ hc rfl
  have hcards2 : getCardById s1.cards top.id = some top := by
    rw [hs1]
    show getCardById
      (updateFirst s.cards card.id (fun c => applyMove c top.pos (top.zIndex + 1))) top.id
      = some top
    rw [getCardById_updateFirst_ne (fun c => applyMove c top.pos (top.zIndex + 1))
      hne (fun x => rfl)]
    exact htidc
  have hundo := onUndoClicked_eval hstack1
    (by show (getCardById s1.cards card.id).isSome = true; rw [hcards1]; rfl)
    (by show (getCardById s1.cards top.id).isSome = true; rw [hcards2]; rfl)
  rw [hundo, hs1]
  dsimp only
  rw [updateFirst_updateFirst (fun c => applyMove c top.pos (top.zIndex + 1))
    (fun c => applyStateChange (applyMove c card.pos card.zIndex) card.state) (fun x => rfl)]
  rw [updateFirst_eq_self _ hc rfl]
  rw [← htid]

theorem draw_step_inverse {s s1 : GameState} {cid : Int}
    (hres : topResolvable s = true)
    (hstep : stackClick s cid = some (s1, true)) : onUndoClicked s1 = s := by
  obtain ⟨card, tid, newZ, hc, _, _, htid, hs1⟩ := stackClick_accepted hstep
  have hcid : card.id = cid := getCardById_id hc
  subst hcid
  have htsome : (getCardById s.cards tid).isSome = true := by
    unfold topResolvable at hres
    rw [htid] at hres
    exact hres
  have hfwd : s1.cards = updateFirst s.cards card.id
      (fun c => applyMove (applyStateChange c CardState.FACE_UP) s.activePos newZ) := by
    rw [hs1]
    dsimp only
    rw [updateFirst_updateFirst (fun c => applyStateChange c CardState.FACE_UP)
      (fun c => applyMove c s.activePos newZ) (fun x => rfl)]
  have hcards1 : (getCardById s1.cards card.id).isSome = true := by
    rw [hfwd]
    rw [getCardById_updateFirst_self
      (fun c => applyMove (applyStateChange c CardState.FACE_UP) s.activePos newZ) hc rfl]
    rfl
  have hcards2 : (getCardById s1.cards tid).isSome = true := by
    by_cases he : tid = card.id
    · rw [he]; exact hcards1
    · rw [hfwd, getCardById_updateFirst_ne
        (fun c => applyMove (applyStateChange c CardState.FACE_UP) s.activePos newZ)
        he (fun x => rfl)]
      exact htsome
  have hstack1 : s1.undoStack
      = (⟨card.id, card.pos, tid, card.state, card.zIndex⟩ : UndoCommand) :: s.undoStack := by
    rw [hs1]
  have hundo := onUndoClicked_eval hstack1
    (by show (getCardById s1.cards card.id).isSome = true; exact hcards1)
    (by show (getCardById s1.cards tid).isSome = true; exact hcards2)
  rw [hundo, hs1]
  dsimp only
  rw [updateFirst_updateFirst (fun c => applyStateChange c CardState.FACE_UP)
    (fun c => applyMove c s.activePos newZ) (fun x => rfl)]
  rw [updateFirst_updateFirst
    (fun c => applyMove (applyStateChange c CardState.FACE_UP) s.activePos newZ)
    (fun c => applyStateChange (applyMove c card.pos card.zIndex) card.state) (fun x => rfl)]
  rw [updateFirst_eq_self _ hc rfl]
  rw [← htid]

theorem play_step_topResolvable {s s1 : GameState} {cid : Int}
    (hstep : playFieldClick s cid = (s1, true)) : topResolvable s1 = true := by
  obtain ⟨card, top, hc, htop, hm, hs1⟩ := playFieldClick_accepted hstep
  have hcid : card.id = cid := getCardById_id hc
  subst hcid
  unfold topResolvable
  rw [hs1]
  dsimp only
  rw [getCardById_updateFirst_self
    (fun c => applyMove c top.pos (top.zIndex + 1)) hc rfl]
  rfl

theorem draw_step_topResolvable {s s1 : GameState} {cid : Int}
    (hstep : stackClick s cid = some (s1, true)) : topResolvable s1 = true := by
  obtain ⟨card, tid, newZ, hc, _, _, htid, hs1⟩ := stackClick_accepted hstep
  have hcid : card.id = cid := getCardById_id hc
  subst hcid
  unfold topResolvable
  rw [hs1]
  dsimp only
  rw [updateFirst_updateFirst (fun c => applyStateChange c CardState.FACE_UP)
    (fun c => applyMove c s.activePos newZ) (fun x => rfl)]
  rw [getCardById_updateFirst_self
    (fun c => applyMove (applyStateChange c CardState.FACE_UP) s.activePos newZ) hc rfl]
  rfl

/-! ## Claim C1 -/

/-- C1: Perfect inverse of moves. For every session state (satisfying the
session invariant that the active-card reference, when set, resolves in the
registry) and every sequence of `N` consecutive accepted player actions
(match-area moves via `PlayFieldController::handleCardClick` or draws via
`StackController::handleCardClick`), invoking `GameController::onUndoClicked`
`N` times restores the entire state — every touched card's position,
visibility state and stacking order, and the active/top-card reference — to
its exact pre-sequence value. -/
theorem accepted_moves_undo_perfect_inverse (s s' : GameState) (acts : List PlayerAction)
    (hres : topResolvable s = true)
    (hrun : runAccepted s acts = some s') :
    undoN acts.length s' = s := by
  induction acts generalizing s with
  | nil =>
    have hss : s = s' := by simpa [runAccepted] using hrun
    rw [← hss]
    rfl
  | cons a rest ih =>
    cases a with
    | play cid =>
      simp only [runAccepted] at hrun
      cases hstep : playFieldClick s cid with
      | mk s1 b =>
        rw [hstep] at hrun
        cases b with
        | false => simp at hrun
        | true =>
          dsimp only at hrun
          have hrest := ih s1 (play_step_topResolvable hstep) hrun
          show undoN (rest.length + 1) s' = s
          rw [undoN, hrest]
          exact play_step_inverse hstep
    | draw cid =>
      simp only [runAccepted] at hrun
      cases hstep : stackClick s cid with
      | none => rw [hstep] at hrun; simp at hrun
      | some p =>
        cases p with
        | mk s1 b =>
          rw [hstep] at hrun
          cases b with
          | false => simp at hrun
          | true =>
            dsimp only at hrun
            have hrest := ih s1 (draw_step_topResolvable hstep) hrun
            show undoN (rest.length + 1) s' = s
            rw [undoN, hrest]
            exact draw_step_inverse hres hstep

/-- Witness for C1: a concrete two-card session (Ace active, a Two in the
match area); the accepted match-area move followed by one undo restores the
initial state exactly. -/
theorem accepted_moves_undo_perfect_inverse_witness :
    topResolvable
        ⟨[⟨0, 0, 0, ⟨9, 9⟩, ⟨0, 0⟩, CardState.FACE_UP, 100⟩,
          ⟨1, 1, 1, ⟨3, 4⟩, ⟨3, 4⟩, CardState.FACE_UP, 5⟩],
         some 0, [], ⟨9, 9⟩⟩ = true ∧
    undoN ([PlayerAction.play 1]).length
        ⟨[⟨0, 0, 0, ⟨9, 9⟩, ⟨0, 0⟩, CardState.FACE_UP, 100⟩,
          ⟨1, 1, 1, ⟨9, 9⟩, ⟨3, 4⟩, CardState.FACE_UP, 101⟩],
         some 1, [⟨1, ⟨3, 4⟩, 0, CardState.FACE_UP, 5⟩], ⟨9, 9⟩⟩
      = ⟨[⟨0, 0, 0, ⟨9, 9⟩, ⟨0, 0⟩, CardState.FACE_UP, 100⟩,
          ⟨1, 1, 1, ⟨3, 4⟩, ⟨3, 4⟩, CardState.FACE_UP, 5⟩],
         some 0, [], ⟨9, 9⟩⟩ :=
  ⟨by decide,
   accepted_moves_undo_perfect_inverse _ _ [PlayerAction.play 1] (by decide) (by decide)⟩

/-! ## Claims C3, C8, C9 — the match rule -/

/-- C3: For every pair of non-null cards whose ranks both lie in [0,12],
`GameLogicService::canMatch` returns true iff the ranks differ by exactly 1
or the two ranks are Ace (0) and King (12) in either order. -/
theorem canMatch_rank_adjacency (c1 c2 : Card)
    (_h1 : 0 ≤ c1.face ∧ c1.face ≤ 12) (_h2 : 0 ≤ c2.face ∧ c2.face ≤ 12) :
    canMatch (some c1) (some c2) = true ↔
      ((c1.face - c2.face).natAbs = 1
        ∨ (c1.face = 0 ∧ c2.face = 12) ∨ (c1.face = 12 ∧ c2.face = 0)) := by
  unfold canMatch
  dsimp only
  split_ifs with ha hb
  · simp only [true_iff]
    exact Or.inl ha
  · simp only [Bool.or_eq_true, Bool.and_eq_true, decide_eq_true_eq] at hb
    simp only [true_iff]
    exact Or.inr hb
  · simp only [Bool.or_eq_true, Bool.and_eq_true, decide_eq_true_eq] at hb
    simp only [false_iff]
    intro hcon
    rcases hcon with hcon | hcon | hcon
    · exact ha hcon
    · exact hb (Or.inl hcon)
    · exact hb (Or.inr hcon)

/-- Witness for C3: ranks 0 (Ace) and 12 (King) are in range and the match
succeeds through the circular wrap. -/
theorem canMatch_rank_adjacency_witness :
    (0 ≤ (0 : Int) ∧ (0 : Int) ≤ 12) ∧ (0 ≤ (12 : Int) ∧ (12 : Int) ≤ 12) ∧
    (canMatch (some ⟨0, 0, 0, ⟨1, 1⟩, ⟨1, 1⟩, CardState.FACE_UP, 1⟩)
        (some ⟨1, 12, 1, ⟨2, 2⟩, ⟨2, 2⟩, CardState.FACE_UP, 2⟩) = true ↔
      ((((0 : Int)) - 12).natAbs = 1
        ∨ ((0 : Int) = 0 ∧ (12 : Int) = 12) ∨ ((0 : Int) = 12 ∧ (12 : Int) = 0))) :=
  ⟨⟨by decide, by decide⟩, ⟨by decide, by decide⟩,
   canMatch_rank_adjacency
     ⟨0, 0, 0, ⟨1, 1⟩, ⟨1, 1⟩, CardState.FACE_UP, 1⟩
     ⟨1, 12, 1, ⟨2, 2⟩, ⟨2, 2⟩, CardState.FACE_UP, 2⟩
     ⟨by decide, by decide⟩ ⟨by decide, by decide⟩⟩

/-- C8: For every card (any face value, including the `CFT_NONE` rank −1),
supplying the same card as both arguments of `GameLogicService::canMatch`
yields false: the face difference is 0 and a single face cannot be both
Ace and King. -/
theorem canMatch_self_false (c : Card) : canMatch (some c) (some c) = false :=
  canMatch_refl c

/-- C9: A card whose face is `CFT_NONE` (−1) matches a card whose face is
`CFT_ACE` (0) in either argument order, because |−1 − 0| = 1: the rank-less
card is matchable against an Ace even though it is outside [0,12]. -/
theorem canMatch_none_face_matches_ace (c1 c2 : Card)
    (h : (c1.face = -1 ∧ c2.face = 0) ∨ (c1.face = 0 ∧ c2.face = -1)) :
    canMatch (some c1) (some c2) = true := by
  unfold canMatch
  dsimp only
  rcases h with ⟨ha, hb⟩ | ⟨ha, hb⟩ <;> rw [ha, hb] <;> rfl

/-- Witness for C9: the concrete rank-less card against a concrete Ace. -/
theorem canMatch_none_face_matches_ace_witness :
    ((((-1 : Int)) = -1 ∧ (0 : Int) = 0) ∨ ((-1 : Int) = 0 ∧ (0 : Int) = -1)) ∧
    canMatch (some ⟨0, -1, -1, ⟨1, 1⟩, ⟨1, 1⟩, CardState.FACE_DOWN, 0⟩)
      (some ⟨1, 0, 2, ⟨2, 2⟩, ⟨2, 2⟩, CardState.FACE_UP, 3⟩) = true :=
  ⟨Or.inl ⟨rfl, rfl⟩,
   canMatch_none_face_matches_ace
     ⟨0, -1, -1, ⟨1, 1⟩, ⟨1, 1⟩, CardState.FACE_DOWN, 0⟩
     ⟨1, 0, 2, ⟨2, 2⟩, ⟨2, 2⟩, CardState.FACE_UP, 3⟩
     (Or.inl ⟨rfl, rfl⟩)⟩

/-! ## Claim C5 — assigned stacking order -/

/-- C5: In `GameController::performMoveCard`, the moved card's assigned
stacking order equals the current active (top) card's order plus one when
an active card exists — hence strictly greater than the active card's order
immediately before the move — and equals the reserved base order 100 when
no active card exists. -/
theorem performMoveCard_assigned_order (s : GameState) (cid : Int) (p : Vec2) (c : Card)
    (hc : getCardById s.cards cid = some c) :
    (∀ t, getTop s = some t →
        getCardById (performMoveCard s cid p).cards cid
            = some (applyMove c p (t.zIndex + 1))
          ∧ t.zIndex + 1 > t.zIndex)
      ∧ (getTop s = none →
        getCardById (performMoveCard s cid p).cards cid = some (applyMove c p 100)) := by
  constructor
  · intro t ht
    constructor
    · unfold performMoveCard
      rw [ht]
      dsimp only
      exact getCardById_updateFirst_self (fun x => applyMove x p (t.zIndex + 1)) hc rfl
    · omega
  · intro ht
    unfold performMoveCard
    rw [ht]
    dsimp only
    exact getCardById_updateFirst_self (fun x => applyMove x p 100) hc rfl

/-- Witness for C5: a concrete state whose active card has order 100; the
moved card receives order 101 > 100. -/
theorem performMoveCard_assigned_order_witness :
    getCardById [(⟨0, 0, 0, ⟨9, 9⟩, ⟨0, 0⟩, CardState.FACE_UP, 100⟩ : Card),
        ⟨1, 1, 1, ⟨3, 4⟩, ⟨3, 4⟩, CardState.FACE_UP, 5⟩] 1
        = some ⟨1, 1, 1, ⟨3, 4⟩, ⟨3, 4⟩, CardState.FACE_UP, 5⟩ ∧
    (∀ t, getTop ⟨[⟨0, 0, 0, ⟨9, 9⟩, ⟨0, 0⟩, CardState.FACE_UP, 100⟩,
          ⟨1, 1, 1, ⟨3, 4⟩, ⟨3, 4⟩, CardState.FACE_UP, 5⟩], some 0, [], ⟨9, 9⟩⟩ = some t →
        getCardById (performMoveCard ⟨[⟨0, 0, 0, ⟨9, 9⟩, ⟨0, 0⟩, CardState.FACE_UP, 100⟩,
            ⟨1, 1, 1, ⟨3, 4⟩, ⟨3, 4⟩, CardState.FACE_UP, 5⟩], some 0, [], ⟨9, 9⟩⟩ 1 ⟨9, 9⟩).cards 1
            = some (applyMove ⟨1, 1, 1, ⟨3, 4⟩, ⟨3, 4⟩, CardState.FACE_UP, 5⟩ ⟨9, 9⟩ (t.zIndex + 1))
          ∧ t.zIndex + 1 > t.zIndex)
      ∧ (getTop ⟨[⟨0, 0, 0, ⟨9, 9⟩, ⟨0, 0⟩, CardState.FACE_UP, 100⟩,
          ⟨1, 1, 1, ⟨3, 4⟩, ⟨3, 4⟩, CardState.FACE_UP, 5⟩], some 0, [], ⟨9, 9⟩⟩ = none →
        getCardById (performMoveCard ⟨[⟨0, 0, 0, ⟨9, 9⟩, ⟨0, 0⟩, CardState.FACE_UP, 100⟩,
            ⟨1, 1, 1, ⟨3, 4⟩, ⟨3, 4⟩, CardState.FACE_UP, 5⟩], some 0, [], ⟨9, 9⟩⟩ 1 ⟨9, 9⟩).cards 1
            = some (applyMove ⟨1, 1, 1, ⟨3, 4⟩, ⟨3, 4⟩, CardState.FACE_UP, 5⟩ ⟨9, 9⟩ 100)) :=
  ⟨by decide,
   performMoveCard_assigned_order
     ⟨[⟨0, 0, 0, ⟨9, 9⟩, ⟨0, 0⟩, CardState.FACE_UP, 100⟩,
       ⟨1, 1, 1, ⟨3, 4⟩, ⟨3, 4⟩, CardState.FACE_UP, 5⟩], some 0, [], ⟨9, 9⟩⟩
     1 ⟨9, 9⟩ ⟨1, 1, 1, ⟨3, 4⟩, ⟨3, 4⟩, CardState.FACE_UP, 5⟩ (by decide)⟩

/-! ## Claim C2 — empty pop -/

/-- C2 counterexample: `UndoManager::popCommand` on the empty stack does not
signal an error — it answers with the fabricated default-constructed
command `UndoCommand()` (cardId −1, zero position, prevTopCardId −1,
FACE_DOWN, order 0). -/
theorem popCommand_empty_returns_default :
    popCommand [] = (UndoCommand.initDefault, [])
      ∧ UndoCommand.initDefault
          = ⟨-1, Vec2.zero, -1, CardState.FACE_DOWN, 0⟩ :=
  ⟨rfl, rfl⟩

/-- C2 amended: `popCommand` on an empty undo stack returns the fabricated
default command (cardId −1, position zero, prevTopCardId −1, FACE_DOWN,
order 0) rather than an explicit error; `canUndo` is false exactly then, so
callers must guard with it. -/
theorem popCommand_empty_default_guarded :
    popCommand [] = (⟨-1, Vec2.zero, -1, CardState.FACE_DOWN, 0⟩, [])
      ∧ canUndo [] = false :=
  ⟨rfl, rfl⟩

/-! ## Claim C4 — NotFound versus Rejected -/

/-- C4 counterexample: with a registry holding a rank-5 active card (id 0)
and a rank-9 match-area card (id 1), clicking the absent id 9999 and
clicking the present-but-unmatchable id 1 produce the very same observable
result (`false`, state unchanged): the handler's `NotFound` outcome is not
distinguishable from its `Rejected` outcome. -/
theorem playFieldClick_notFound_indistinguishable :
    getCardById [(⟨0, 5, 0, ⟨9, 9⟩, ⟨0, 0⟩, CardState.FACE_UP, 100⟩ : Card),
        ⟨1, 9, 1, ⟨3, 4⟩, ⟨3, 4⟩, CardState.FACE_UP, 5⟩] 9999 = none
      ∧ (getCardById [(⟨0, 5, 0, ⟨9, 9⟩, ⟨0, 0⟩, CardState.FACE_UP, 100⟩ : Card),
          ⟨1, 9, 1, ⟨3, 4⟩, ⟨3, 4⟩, CardState.FACE_UP, 5⟩] 1).isSome = true
      ∧ playFieldClick ⟨[⟨0, 5, 0, ⟨9, 9⟩, ⟨0, 0⟩, CardState.FACE_UP, 100⟩,
            ⟨1, 9, 1, ⟨3, 4⟩, ⟨3, 4⟩, CardState.FACE_UP, 5⟩], some 0, [], ⟨9, 9⟩⟩ 9999
          = (⟨[⟨0, 5, 0, ⟨9, 9⟩, ⟨0, 0⟩, CardState.FACE_UP, 100⟩,
              ⟨1, 9, 1, ⟨3, 4⟩, ⟨3, 4⟩, CardState.FACE_UP, 5⟩], some 0, [], ⟨9, 9⟩⟩, false)
      ∧ playFieldClick ⟨[⟨0, 5, 0, ⟨9, 9⟩, ⟨0, 0⟩, CardState.FACE_UP, 100⟩,
            ⟨1, 9, 1, ⟨3, 4⟩, ⟨3, 4⟩, CardState.FACE_UP, 5⟩], some 0, [], ⟨9, 9⟩⟩ 1
          = (⟨[⟨0, 5, 0, ⟨9, 9⟩, ⟨0, 0⟩, CardState.FACE_UP, 100⟩,
              ⟨1, 9, 1, ⟨3, 4⟩, ⟨3, 4⟩, CardState.FACE_UP, 5⟩], some 0, [], ⟨9, 9⟩⟩, false) := by
  refine ⟨rfl, rfl, ?_, ?_⟩ <;> decide

/-- C4 amended: a `MakeMove` intent whose card id is absent from the
registry returns `false` — the same value the handler returns for a
rejected move, so only `Accepted` (`true`) is distinguishable — and
performs no mutation and pushes no undo entry (the state is returned
untouched). -/
theorem playFieldClick_notFound_no_mutation (s : GameState) (cid : Int)
    (h : getCardById s.cards cid = none) :
    playFieldClick s cid = (s, false) := by
  unfold playFieldClick
  rw [h]

/-- Witness for the amended C4: clicking id 9999 in a one-card session. -/
theorem playFieldClick_notFound_no_mutation_witness :
    getCardById [(⟨0, 5, 0, ⟨9, 9⟩, ⟨0, 0⟩, CardState.FACE_UP, 100⟩ : Card)] 9999 = none
      ∧ playFieldClick ⟨[⟨0, 5, 0, ⟨9, 9⟩, ⟨0, 0⟩, CardState.FACE_UP, 100⟩],
            some 0, [], ⟨9, 9⟩⟩ 9999
          = (⟨[⟨0, 5, 0, ⟨9, 9⟩, ⟨0, 0⟩, CardState.FACE_UP, 100⟩], some 0, [], ⟨9, 9⟩⟩, false) :=
  ⟨by decide,
   playFieldClick_notFound_no_mutation
     ⟨[⟨0, 5, 0, ⟨9, 9⟩, ⟨0, 0⟩, CardState.FACE_UP, 100⟩], some 0, [], ⟨9, 9⟩⟩ 9999 (by decide)⟩

/-! ## Claim C6 — draw validity -/

/-- C6: A draw intent (`StackController::handleCardClick`) is accepted only
when the clicked card's origin position is the zero vector (draw/waste
region) and its state is `FACE_DOWN`; for every resolvable card failing
either condition the handler answers `false` with the state unchanged —
no mutation, no undo entry. -/
theorem stackClick_draw_validity (s : GameState) (cid : Int) (c : Card)
    (hc : getCardById s.cards cid = some c) :
    (∀ s1, stackClick s cid = some (s1, true)
        → c.originPos = Vec2.zero ∧ c.state = CardState.FACE_DOWN)
      ∧ (¬(c.originPos = Vec2.zero ∧ c.state = CardState.FACE_DOWN)
        → stackClick s cid = some (s, false)) := by
  constructor
  · intro s1 hstep
    obtain ⟨card, tid, newZ, hc', ho, hst, _, _⟩ := stackClick_accepted hstep
    rw [hc] at hc'
    have hcc : c = card := Option.some.inj hc'
    rw [hcc]
    exact ⟨ho, hst⟩
  · intro hcond
    unfold stackClick
    rw [hc]
    dsimp only
    rw [if_neg hcond]

/-- Witness for C6: a face-up card sitting at the zero origin fails the
`FACE_DOWN` condition and the draw is rejected with the state unchanged. -/
theorem stackClick_draw_validity_witness :
    getCardById [(⟨0, 4, 0, ⟨1, 1⟩, ⟨0, 0⟩, CardState.FACE_UP, 0⟩ : Card)] 0
        = some ⟨0, 4, 0, ⟨1, 1⟩, ⟨0, 0⟩, CardState.FACE_UP, 0⟩
      ∧ ((∀ s1, stackClick ⟨[⟨0, 4, 0, ⟨1, 1⟩, ⟨0, 0⟩, CardState.FACE_UP, 0⟩],
              some 0, [], ⟨9, 9⟩⟩ 0 = some (s1, true)
            → (⟨0, 4, 0, ⟨1, 1⟩, ⟨0, 0⟩, CardState.FACE_UP, 0⟩ : Card).originPos = Vec2.zero
              ∧ (⟨0, 4, 0, ⟨1, 1⟩, ⟨0, 0⟩, CardState.FACE_UP, 0⟩ : Card).state
                  = CardState.FACE_DOWN)
        ∧ (¬((⟨0, 4, 0, ⟨1, 1⟩, ⟨0, 0⟩, CardState.FACE_UP, 0⟩ : Card).originPos = Vec2.zero
              ∧ (⟨0, 4, 0, ⟨1, 1⟩, ⟨0, 0⟩, CardState.FACE_UP, 0⟩ : Card).state
                  = CardState.FACE_DOWN)
          → stackClick ⟨[⟨0, 4, 0, ⟨1, 1⟩, ⟨0, 0⟩, CardState.FACE_UP, 0⟩],
              some 0, [], ⟨9, 9⟩⟩ 0
            = some (⟨[⟨0, 4, 0, ⟨1, 1⟩, ⟨0, 0⟩, CardState.FACE_UP, 0⟩],
                some 0, [], ⟨9, 9⟩⟩, false))) :=
  ⟨by decide,
   stackClick_draw_validity
     ⟨[⟨0, 4, 0, ⟨1, 1⟩, ⟨0, 0⟩, CardState.FACE_UP, 0⟩], some 0, [], ⟨9, 9⟩⟩ 0
     ⟨0, 4, 0, ⟨1, 1⟩, ⟨0, 0⟩, CardState.FACE_UP, 0⟩ (by decide)⟩

/-! ## Claim C7 — silent undo on missing ids -/

/-- C7 counterexample: the undo handler reports nothing. At a concrete
state whose popped command references the missing id 999 (a
data-corruption case) and at a different concrete state whose undo succeeds
(an applied case), `GameController::onUndoClicked` produces the identical
output state — its only observable — so no explicit `DataCorruption`
result distinguishable from a successful undo is reported to the caller. -/
theorem onUndoClicked_corruption_silent :
    getCardById [(⟨0, 3, 0, ⟨5, 5⟩, ⟨5, 5⟩, CardState.FACE_UP, 100⟩ : Card)] 999 = none
      ∧ (⟨[⟨0, 3, 0, ⟨5, 5⟩, ⟨5, 5⟩, CardState.FACE_UP, 100⟩],
            some 0, [⟨999, ⟨1, 2⟩, 0, CardState.FACE_DOWN, 7⟩], ⟨9, 9⟩⟩ : GameState)
          ≠ ⟨[⟨0, 3, 0, ⟨5, 5⟩, ⟨5, 5⟩, CardState.FACE_UP, 100⟩],
            some 0, [⟨0, ⟨5, 5⟩, 0, CardState.FACE_UP, 100⟩], ⟨9, 9⟩⟩
      ∧ onUndoClicked ⟨[⟨0, 3, 0, ⟨5, 5⟩, ⟨5, 5⟩, CardState.FACE_UP, 100⟩],
            some 0, [⟨999, ⟨1, 2⟩, 0, CardState.FACE_DOWN, 7⟩], ⟨9, 9⟩⟩
          = onUndoClicked ⟨[⟨0, 3, 0, ⟨5, 5⟩, ⟨5, 5⟩, CardState.FACE_UP, 100⟩],
            some 0, [⟨0, ⟨5, 5⟩, 0, CardState.FACE_UP, 100⟩], ⟨9, 9⟩⟩ := by
  refine ⟨rfl, ?_, ?_⟩ <;> decide

/-- C7 amended: when either id recorded in the popped command is missing
from the registry, the undo attempt silently stops: the popped entry is
discarded, no card and no active-card reference is mutated, and the
remaining undo history stays usable — but no `DataCorruption` result value
is reported (the handler returns nothing). -/
theorem onUndoClicked_missing_id_discards (s : GameState) (cmd : UndoCommand)
    (rest : List UndoCommand)
    (hstack : s.undoStack = cmd :: rest)
    (h : getCardById s.cards cmd.cardId = none
      ∨ getCardById s.cards cmd.prevTopCardId = none) :
    onUndoClicked s = { s with undoStack := rest } := by
  apply onUndoClicked_corrupt hstack
  rcases h with h | h
  · left; rw [h]; rfl
  · right; rw [h]; rfl

/-- Witness for the amended C7: the concrete corrupt state above loses only
its popped entry. -/
theorem onUndoClicked_missing_id_discards_witness :
    (⟨[⟨0, 3, 0, ⟨5, 5⟩, ⟨5, 5⟩, CardState.FACE_UP, 100⟩],
        some 0, [⟨999, ⟨1, 2⟩, 0, CardState.FACE_DOWN, 7⟩], ⟨9, 9⟩⟩ : GameState).undoStack
        = (⟨999, ⟨1, 2⟩, 0, CardState.FACE_DOWN, 7⟩ : UndoCommand) :: []
      ∧ onUndoClicked ⟨[⟨0, 3, 0, ⟨5, 5⟩, ⟨5, 5⟩, CardState.FACE_UP, 100⟩],
            some 0, [⟨999, ⟨1, 2⟩, 0, CardState.FACE_DOWN, 7⟩], ⟨9, 9⟩⟩
          = { (⟨[⟨0, 3, 0, ⟨5, 5⟩, ⟨5, 5⟩, CardState.FACE_UP, 100⟩],
                some 0, [⟨999, ⟨1, 2⟩, 0, CardState.FACE_DOWN, 7⟩], ⟨9, 9⟩⟩ : GameState)
              with undoStack := [] } :=
  ⟨rfl,
   onUndoClicked_missing_id_discards
     ⟨[⟨0, 3, 0, ⟨5, 5⟩, ⟨5, 5⟩, CardState.FACE_UP, 100⟩],
       some 0, [⟨999, ⟨1, 2⟩, 0, CardState.FACE_DOWN, 7⟩], ⟨9, 9⟩⟩
     ⟨999, ⟨1, 2⟩, 0, CardState.FACE_DOWN, 7⟩ [] rfl (Or.inl (by decide))⟩

/-! ## Claim C10 — the unguarded top-card dereference is safe -/

theorem playFieldClick_rejected {s s1 : GameState} {cid : Int}
    (hstep : playFieldClick s cid = (s1, false)) : s1 = s := by
  unfold playFieldClick at hstep
  cases hc : getCardById s.cards cid with
  | none =>
    rw [hc] at hstep
    simp only [Prod.mk.injEq] at hstep
    exact hstep.1.symm
  | some card =>
    rw [hc] at hstep
    dsimp only at hstep
    cases htop : getTop s with
    | none =>
      rw [htop] at hstep
      simp only [Prod.mk.injEq] at hstep
      exact hstep.1.symm
    | some top =>
      rw [htop] at hstep
      dsimp only at hstep
      by_cases hm : canMatch (some top) (some card) = true
      · rw [if_pos hm] at hstep
        simp at hstep
      · rw [if_neg hm] at hstep
        simp only [Prod.mk.injEq] at hstep
        exact hstep.1.symm

theorem stackClick_rejected {s s1 : GameState} {cid : Int}
    (hstep : stackClick s cid = some (s1, false)) : s1 = s := by
  unfold stackClick at hstep
  cases hc : getCardById s.cards cid with
  | none =>
    rw [hc] at hstep
    simp only [Option.some.injEq, Prod.mk.injEq] at hstep
    exact hstep.1.symm
  | some card =>
    rw [hc] at hstep
    dsimp only at hstep
    by_cases hcond : card.originPos = Vec2.zero ∧ card.state = CardState.FACE_DOWN
    · rw [if_pos hcond] at hstep
      cases htid : s.topCardId with
      | none => rw [htid] at hstep; simp at hstep
      | some tid =>
        rw [htid] at hstep
        dsimp only at hstep
        simp at hstep
    · rw [if_neg hcond] at hstep
      simp only [Option.some.injEq, Prod.mk.injEq] at hstep
      exact hstep.1.symm

theorem stackClick_ne_none_of_top_isSome {s : GameState}
    (h : s.topCardId.isSome = true) (cid : Int) : stackClick s cid ≠ none := by
  unfold stackClick
  cases hc : getCardById s.cards cid with
  | none => simp
  | some card =>
    dsimp only
    by_cases hcond : card.originPos = Vec2.zero ∧ card.state = CardState.FACE_DOWN
    · rw [if_pos hcond]
      cases htid : s.topCardId with
      | none => rw [htid] at h; simp at h
      | some tid => simp
    · rw [if_neg hcond]
      simp

theorem onUndoClicked_top_isSome {s : GameState} (h : s.topCardId.isSome = true) :
    (onUndoClicked s).topCardId.isSome = true := by
  cases hstack : s.undoStack with
  | nil =>
    rw [onUndoClicked_empty hstack]
    exact h
  | cons cmd rest =>
    by_cases hg : (getCardById s.cards cmd.cardId).isSome = true
        ∧ (getCardById s.cards cmd.prevTopCardId).isSome = true
    · rw [onUndoClicked_eval hstack hg.1 hg.2]
      rfl
    · have hg' : (getCardById s.cards cmd.cardId).isSome = false
          ∨ (getCardById s.cards cmd.prevTopCardId).isSome = false := by
        rcases Bool.eq_false_or_eq_true (getCardById s.cards cmd.cardId).isSome with h1 | h1
        · rcases Bool.eq_false_or_eq_true
              (getCardById s.cards cmd.prevTopCardId).isSome with h2 | h2
          · exact absurd ⟨h1, h2⟩ hg
          · exact Or.inr h2
        · exact Or.inl h1
      rw [onUndoClicked_corrupt hstack hg']
      exact h

theorem reachable_top_isSome {s0 t : GameState} (h0 : s0.topCardId.isSome = true)
    (hr : Reachable s0 t) : t.topCardId.isSome = true := by
  induction hr with
  | refl => exact h0
  | play v cid hro ih =>
    cases hstep : playFieldClick v cid with
    | mk v1 b =>
      cases b with
      | true =>
        obtain ⟨card, top, hc, htop, hm, hs1⟩ := playFieldClick_accepted hstep
        rw [hs1]
        rfl
      | false =>
        rw [playFieldClick_rejected hstep]
        exact ih
  | draw v r b cid hro heq ih =>
    cases b with
    | true =>
      obtain ⟨card, tid, newZ, hc, _, _, _, hs1⟩ := stackClick_accepted heq
      rw [hs1]
      rfl
    | false =>
      rw [stackClick_rejected heq]
      exact ih
  | undo v hro ih => exact onUndoClicked_top_isSome ih
  | pfInit v hro ih => exact ih

theorem stackInitView_top_isSome {s : GameState} {stockPos : Vec2}
    (h : s.cards.filter (fun c => c.originPos = Vec2.zero) ≠ []) :
    (stackInitView s stockPos).topCardId.isSome = true := by
  unfold stackInitView
  dsimp only
  cases hl : (s.cards.filter (fun c => c.originPos = Vec2.zero)).getLast? with
  | none =>
    rw [List.getLast?_eq_none_iff] at hl
    exact absurd hl h
  | some lastCard =>
    rfl

/-- C10: In every state reachable — through the two click handlers, the
undo button and the play-field layout pass — from a session whose
`StackController::initView` ran with at least one draw-region card, the
top-card reference `_topStackCard` is non-null, and therefore the unguarded
dereference of `_topStackCard->getId()` inside
`StackController::handleCardClick` (the `none` outcome of the embedding)
can never fire. -/
theorem stack_top_never_null (sInit t : GameState) (stockPos : Vec2)
    (hnonempty : sInit.cards.filter (fun c => c.originPos = Vec2.zero) ≠ [])
    (hreach : Reachable (stackInitView sInit stockPos) t) :
    t.topCardId.isSome = true ∧ ∀ cid, stackClick t cid ≠ none := by
  have h0 : (stackInitView sInit stockPos).topCardId.isSome = true :=
    stackInitView_top_isSome hnonempty
  have ht := reachable_top_isSome h0 hreach
  exact ⟨ht, fun cid => stackClick_ne_none_of_top_isSome ht cid⟩

/-- Witness for C10: one draw-region card; right after `initView` the
top-card reference is set and no draw click can hit the null dereference. -/
theorem stack_top_never_null_witness :
    ((⟨[⟨0, 4, 0, ⟨1, 1⟩, ⟨0, 0⟩, CardState.FACE_DOWN, 0⟩],
        none, [], ⟨9, 9⟩⟩ : GameState).cards.filter
          (fun c => c.originPos = Vec2.zero) ≠ [])
      ∧ ((stackInitView ⟨[⟨0, 4, 0, ⟨1, 1⟩, ⟨0, 0⟩, CardState.FACE_DOWN, 0⟩],
            none, [], ⟨9, 9⟩⟩ ⟨20, 2⟩).topCardId.isSome = true
        ∧ ∀ cid, stackClick (stackInitView ⟨[⟨0, 4, 0, ⟨1, 1⟩, ⟨0, 0⟩, CardState.FACE_DOWN, 0⟩],
            none, [], ⟨9, 9⟩⟩ ⟨20, 2⟩) cid ≠ none) :=
  ⟨by decide,
   stack_top_never_null
     ⟨[⟨0, 4, 0, ⟨1, 1⟩, ⟨0, 0⟩, CardState.FACE_DOWN, 0⟩], none, [], ⟨9, 9⟩⟩ _ ⟨20, 2⟩
     (by decide) Reachable.refl⟩
